import Mathlib

/-!
Shallow embedding of `src/protocol_integrity_analysis.py` (IICP/SYNAPSE
protocol integrity analysis and simulation harness).

Conventions of the embedding:
* Python floats are modelled as rationals (ℚ); all arithmetic is exact.
* Every call to the process-wide random source is modelled as an explicit
  draw passed in a record (a "tape"): `random.uniform`, `random.random` and
  `np.random.normal` become rational parameters, `random.choice` becomes a
  natural-number index reduced modulo the list length.
* Fallible operations (`random.choice` on an empty list raising IndexError)
  return `Option`; `none` models the uncaught Python exception.
* numpy weight matrices of shape (f, h) are stored column-major, as the list
  of their h columns (each a list of f rationals): the j-th component of
  `np.dot(x, W)` is the dot product of `x` with the j-th column of `W`.
-/

set_option linter.unusedVariables false
set_option linter.unnecessarySeqFocus false
set_option maxRecDepth 8000

namespace IICP

/-- The `MessageType` enum (source lines 21-35), opcodes 0x01 - 0x0E. -/
inductive MessageType where
  | INIT
  | ACK
  | DISCOVER
  | SUB_PROTOCOL
  | CALL
  | RESPONSE
  | CLOSE
  | FEEDBACK
  | PING
  | PONG
  | CONTROL
  | ADVERTISE
  | OBSERVE
  | TELEMETRY
deriving DecidableEq

/-- The `QoSClass` enum (source lines 37-40). -/
inductive QoSClass where
  | REALTIME
  | INTERACTIVE
  | BATCH
deriving DecidableEq

/-- The `TransportHint` enum (source lines 42-45). -/
inductive TransportHint where
  | QUIC
  | QUDAG
  | DUAL
deriving DecidableEq

/-- The `Agent` dataclass (source lines 56-64).  Python dataclass equality is
structural, which the derived `DecidableEq` matches. -/
structure Agent where
  agent_id : String
  region : String
  supported_intents : List String
  performance_class : QoSClass
  transport_pref : TransportHint
  load_factor : ℚ
  last_heartbeat : ℚ
deriving DecidableEq

/-- A router dict as built by `_initialize_routers` (source lines 260-268). -/
structure Router where
  router_id : String
  region : String
  queue_depth : ℕ
  processed_messages : ℕ
  error_count : ℕ
  cpu_utilization : ℚ
deriving DecidableEq

/-!
## ProtocolIntegrityAnalyzer (source lines 66-211)

The analyzer appends human-readable strings to `self.issues`; the embedding
records each appended issue as a constructor carrying the data that the
Python format string interpolates, in the same order the source appends them.
The three check methods operate on tables hardcoded in their bodies; the
embedding takes those tables as parameters and `calculate_integrity_score`
instantiates them with the hardcoded values, so that the checks can also be
stated for modified tables.
-/

/-- One entry of the analyzer issue log `self.issues`. -/
inductive Issue where
  | duplicate_opcodes
  | opcode_out_of_range (opcode : ℤ)
  | missing_opcodes (missing : Finset ℤ)
  | header_naming (header : String)
  | invalid_version_range
  | current_version_outside_range
deriving DecidableEq

/-- The `consistency_check` dict of `analyze_message_consistency`. -/
structure MessageConsistency where
  opcode_uniqueness : Bool
  range_validity : Bool
  completeness : Bool
deriving DecidableEq

/-- The `header_consistency` dict of `analyze_header_field_consistency`. -/
structure HeaderConsistency where
  naming_convention : Bool
  type_consistency : Bool
  required_coverage : Bool
deriving DecidableEq

/-- The `version_check` dict of `analyze_version_compatibility`. -/
structure VersionCheck where
  range_validity : Bool
  backward_compatibility : Bool
  forward_compatibility : Bool
deriving DecidableEq

/-- `list(expected_opcodes.values())` (source lines 78-93, 102): the 14
opcodes 0x01 - 0x0E in dict insertion order. -/
def expected_opcodes : List ℤ := [1, 2, 3, 4, 5, 6, 7, 8, 9, 10, 11, 12, 13, 14]

/-- `set(range(0x01, 0x0F))` (source line 114). -/
def expected_range : Finset ℤ := Finset.Ico 1 15

/-- `analyze_message_consistency` (source lines 73-123), parametrized by the
opcode list; returns the check dict and the issues appended to `self.issues`.
`len(set(opcodes))` is `opcodes.toFinset.card`. -/
def analyze_message_consistency (opcodes : List ℤ) : MessageConsistency × List Issue :=
  let opcode_uniqueness := decide (opcodes.length = opcodes.toFinset.card)
  let uniqueness_issues : List Issue :=
    if opcodes.length = opcodes.toFinset.card then [] else [Issue.duplicate_opcodes]
  let range_validity := opcodes.all (fun op => decide (1 ≤ op ∧ op ≤ 14))
  let range_issues : List Issue :=
    (opcodes.filter (fun op => ! decide (1 ≤ op ∧ op ≤ 14))).map Issue.opcode_out_of_range
  let actual_opcodes := opcodes.toFinset
  let comp :=
    if actual_opcodes ≠ expected_range then
      let missing := expected_range \ actual_opcodes
      if missing ≠ ∅ then (false, [Issue.missing_opcodes missing]) else (true, ([] : List Issue))
    else (true, ([] : List Issue))
  (⟨opcode_uniqueness, range_validity, comp.1⟩,
   uniqueness_issues ++ range_issues ++ comp.2)

/-- The `iicp_headers` list (source lines 145-149). -/
def iicp_headers : List String :=
  ["X-IICP-TTL", "X-IICP-Hash", "X-IICP-Lock", "X-IICP-Transport-Hint",
   "X-IICP-Trace-Hash", "X-IICP-Auth-Method", "X-IICP-Retry-Policy",
   "X-IICP-Routing-Hint", "X-IICP-Scheduling-Hint"]

/-- Python `header.startswith("X-IICP-")`, stated over the character lists of
the two strings. -/
def header_has_iicp_prefix (header : String) : Bool :=
  "X-IICP-".data.isPrefixOf header.data

/-- `analyze_header_field_consistency` (source lines 125-157), parametrized by
the header list.  `type_consistency` and `required_coverage` are initialized
true and never modified by the source. -/
def analyze_header_field_consistency (headers : List String) : HeaderConsistency × List Issue :=
  let naming_convention := headers.all (fun h => header_has_iicp_prefix h)
  let naming_issues : List Issue :=
    (headers.filter (fun h => ! header_has_iicp_prefix h)).map Issue.header_naming
  (⟨naming_convention, true, true⟩, naming_issues)

/-- `analyze_version_compatibility` (source lines 159-183), parametrized by
the version bounds; `backward_compatibility` and `forward_compatibility` are
initialized true and never modified by the source. -/
def analyze_version_compatibility (min_version max_version current_version : ℤ) :
    VersionCheck × List Issue :=
  let bad_range := decide (min_version ≥ max_version)
  let bad_current := decide (current_version < min_version ∨ current_version > max_version)
  let issues : List Issue :=
    (if bad_range then [Issue.invalid_version_range] else []) ++
    (if bad_current then [Issue.current_version_outside_range] else [])
  (⟨!bad_range && !bad_current, true, true⟩, issues)

/-- `sum(d.values())` over a three-boolean check dict. -/
def bool_count (a b c : Bool) : ℕ :=
  (if a then 1 else 0) + (if b then 1 else 0) + (if c then 1 else 0)

/-- `calculate_integrity_score` (source lines 185-211) on a fresh analyzer:
runs the three checks on the hardcoded tables (opcodes 0x01 - 0x0E, the nine
X-IICP headers, version bounds 0x09 / 0x0E with current version 0x0E), and
returns `(passed_checks / total_checks) * 100` together with the final
contents of `self.issues` (the three issue lists in call order). -/
def calculate_integrity_score : ℚ × List Issue :=
  let mc := analyze_message_consistency expected_opcodes
  let hc := analyze_header_field_consistency iicp_headers
  let vc := analyze_version_compatibility 9 14 14
  let total_checks : ℕ := 3 + 3 + 3
  let passed_checks : ℕ :=
    bool_count mc.1.opcode_uniqueness mc.1.range_validity mc.1.completeness +
    bool_count hc.1.naming_convention hc.1.type_consistency hc.1.required_coverage +
    bool_count vc.1.range_validity vc.1.backward_compatibility vc.1.forward_compatibility
  (((passed_checks : ℚ) / (total_checks : ℚ)) * 100, mc.2 ++ hc.2 ++ vc.2)

/-!
## IICPNeuralNetworkSimulator (source lines 213-467)

The simulator state keeps the fields that the simulated methods read:
`self.agents`, `self.routers`, `self.simulation_time` and the two weight
matrices consumed by the latency and failure predictions (the
`load_balancing` matrix is initialized at line 228 but never read).  The
weight matrices are drawn once at construction from a normal distribution;
the embedding quantifies over arbitrary matrices, which covers every draw.
-/

/-- Mutable simulator state read by the simulation methods. -/
structure SimState where
  agents : List Agent
  routers : List Router
  simulation_time : ℚ
  latency_prediction_weights : List (List ℚ)
  failure_prediction_weights : List (List ℚ)
deriving DecidableEq

/-- Dot product of two rational vectors (zipping truncates at the shorter). -/
def list_dot (x y : List ℚ) : ℚ :=
  ((x.zip y).map (fun p => p.1 * p.2)).sum

/-- `np.dot(x, W)` with `W` stored as its list of columns. -/
def vec_mat_mul (x : List ℚ) (w_cols : List (List ℚ)) : List ℚ :=
  w_cols.map (fun col => list_dot x col)

/-- `_neural_network_predict` (source lines 271-280): ReLU of the matrix
product, arithmetic mean of the hidden vector (`np.mean`), result bounded
below by 0.001. -/
def neural_network_predict (input_vector : List ℚ) (weights : List (List ℚ)) : ℚ :=
  let hidden := (vec_mat_mul input_vector weights).map (fun v => max 0 v)
  let output := hidden.sum / (hidden.length : ℚ)
  max (1/1000) output

/-- The `qos_priority` table of `_calculate_message_latency` (source line
288): realtime 1.0, interactive 0.6, batch 0.3. -/
def qos_priority : QoSClass → ℚ
  | QoSClass.REALTIME => 1
  | QoSClass.INTERACTIVE => 3/5
  | QoSClass.BATCH => 3/10

/-- The `base_latency` table (source lines 310-314): realtime 50 ms,
interactive 150 ms, batch 500 ms. -/
def base_latency : QoSClass → ℚ
  | QoSClass.REALTIME => 50
  | QoSClass.INTERACTIVE => 150
  | QoSClass.BATCH => 500

/-- The draws `_calculate_message_latency` takes from the process-wide random
source, in the order the source makes them.  `cross_region_factor` is drawn
(line 318) only when the message crosses regions; `noise` is the
`np.random.normal(0, final_latency * 0.1)` sample of line 324, unbounded. -/
structure LatencyDraws where
  network_load : ℚ
  congestion : ℚ
  router_efficiency : ℚ
  error_rate : ℚ
  random_network_factor : ℚ
  cross_region_factor : ℚ
  noise : ℚ
deriving DecidableEq

/-- The `input_features` vector (source lines 291-302). -/
def latency_features (sim : SimState) (d : LatencyDraws)
    (source_region dest_region : String) (message_size_kb : ℚ) (qos : QoSClass) : List ℚ :=
  let cross_region : ℚ := if source_region ≠ dest_region then 1 else 0
  [cross_region,
   qos_priority qos,
   d.network_load,
   min (message_size_kb / 100) 1,
   d.congestion,
   d.router_efficiency,
   d.error_rate,
   sim.simulation_time / 1000,
   (sim.agents.length : ℚ) / 25000,
   d.random_network_factor]

/-- `_calculate_message_latency` (source lines 282-325).  The Python
truthiness test `if cross_region:` is the test `cross_region ≠ 0`. -/
def calculate_message_latency (sim : SimState) (d : LatencyDraws)
    (source_region dest_region : String) (message_size_kb : ℚ) (qos : QoSClass) : ℚ :=
  let cross_region : ℚ := if source_region ≠ dest_region then 1 else 0
  let predicted_latency :=
    neural_network_predict (latency_features sim d source_region dest_region message_size_kb qos)
      sim.latency_prediction_weights
  let base := base_latency qos
  let base := if cross_region ≠ 0 then base * d.cross_region_factor else base
  let final_latency := base * (1/2 + predicted_latency * 2)
  max 10 (final_latency + d.noise)

/-- The draws `_simulate_message_processing` takes from the random source:
the two `random.choice` selections (modelled as indices), the latency draws,
the network-error-rate feature (line 349) and the success draw of line 358. -/
structure SimDraws where
  source_choice : ℕ
  dest_choice : ℕ
  latency : LatencyDraws
  network_error_rate : ℚ
  success_draw : ℚ
deriving DecidableEq

/-- `random.choice(l)` with the uniform draw modelled as an index reduced
modulo the length; `none` models the IndexError raised on an empty list. -/
def choice {α : Type} (l : List α) (i : ℕ) : Option α :=
  l.get? (i % l.length)

/-- The endpoint selection of `_simulate_message_processing` (source lines
331-333): a random source agent, then a random destination among the agents
structurally different from the source. -/
def select_endpoints (agents : List Agent) (i j : ℕ) : Option (Agent × Agent) :=
  match choice agents i with
  | none => none
  | some source_agent =>
    match choice (agents.filter (fun a => decide (a ≠ source_agent))) j with
    | none => none
    | some dest_agent => some (source_agent, dest_agent)

/-- The `failure_features` vector (source lines 344-351). -/
def failure_features (sim : SimState) (source_agent dest_agent : Agent)
    (d : SimDraws) (payload_size_kb latency : ℚ) : List ℚ :=
  [latency / 1000,
   payload_size_kb / 100,
   source_agent.load_factor,
   dest_agent.load_factor,
   d.network_error_rate,
   (sim.agents.length : ℚ) / 25000]

/-- The latency/success computation of `_simulate_message_processing` after
the endpoints are selected (source lines 335-360): latency from the source
region, destination region and the SOURCE agent QoS class; success when the
uniform draw exceeds `failure_probability * 0.01`. -/
def message_outcome (sim : SimState) (source_agent dest_agent : Agent)
    (d : SimDraws) (payload_size_kb : ℚ) : ℚ × Bool :=
  let latency := calculate_message_latency sim d.latency source_agent.region dest_agent.region
    payload_size_kb source_agent.performance_class
  let failure_probability :=
    neural_network_predict (failure_features sim source_agent dest_agent d payload_size_kb latency)
      sim.failure_prediction_weights
  let success := decide (failure_probability * (1/100) < d.success_draw)
  (latency, success)

/-- `_simulate_message_processing` (source lines 327-360).  The
`message_type` parameter is received but never read by the body. -/
def simulate_message_processing (sim : SimState) (d : SimDraws)
    (message_type : MessageType) (payload_size_kb : ℚ) : Option (ℚ × Bool) :=
  match select_endpoints sim.agents d.source_choice d.dest_choice with
  | none => none
  | some (source_agent, dest_agent) =>
    some (message_outcome sim source_agent dest_agent d payload_size_kb)

/-!
## run_large_scale_simulation (source lines 362-418)

The loop is embedded with an explicit accumulator and a tape of per-message
draws indexed by (second, message index).  The final metrics assembly (lines
402-415) computes the p95 percentile and divides by the wall-clock elapsed
time (`time.time()`); those fields are outside the embedding, which returns
the final simulator state together with the raw accumulator the metrics are
computed from (message counters, latency samples, success and error
counters). -/

/-- `list(MessageType)` (source line 381) in declaration order. -/
def message_type_list : List MessageType :=
  [MessageType.INIT, MessageType.ACK, MessageType.DISCOVER, MessageType.SUB_PROTOCOL,
   MessageType.CALL, MessageType.RESPONSE, MessageType.CLOSE, MessageType.FEEDBACK,
   MessageType.PING, MessageType.PONG, MessageType.CONTROL, MessageType.ADVERTISE,
   MessageType.OBSERVE, MessageType.TELEMETRY]

/-- `random.choice(list(MessageType))`: the list is a fixed nonempty constant,
so the selection is total. -/
def pick_message_type (i : ℕ) : MessageType :=
  (message_type_list.get? (i % message_type_list.length)).getD MessageType.INIT

/-- The draws one iteration of the inner message loop takes (source lines
381-384): the message type selection, the `random.uniform(1, 500)` payload
size and the draws of the simulated message itself. -/
structure MsgDraws where
  message_type_choice : ℕ
  payload_size : ℚ
  sim_draws : SimDraws

/-- The accumulator variables of `run_large_scale_simulation` (source lines
366-370). -/
structure RunAccum where
  total_messages : ℕ
  total_latency : ℚ
  successful_messages : ℕ
  error_count : ℕ
  latencies : List ℚ
deriving DecidableEq

/-- The accumulator at source lines 366-370, before the loop. -/
def init_accum : RunAccum := ⟨0, 0, 0, 0, []⟩

/-- One iteration of the inner message loop (source lines 380-393). -/
def step_message (sim : SimState) (d : MsgDraws) (acc : RunAccum) : Option RunAccum :=
  match simulate_message_processing sim d.sim_draws
      (pick_message_type d.message_type_choice) d.payload_size with
  | none => none
  | some (latency, success) =>
    some { total_messages := acc.total_messages + 1,
           total_latency := acc.total_latency + latency,
           successful_messages := acc.successful_messages + (if success then 1 else 0),
           error_count := acc.error_count + (if success then 0 else 1),
           latencies := acc.latencies ++ [latency] }

/-- The first `n` iterations of the inner loop `for _ in
range(messages_per_second)` (source line 380), in order. -/
def run_messages (sim : SimState) (tape : ℕ → MsgDraws) : ℕ → RunAccum → Option RunAccum
  | 0, acc => some acc
  | n + 1, acc =>
    match run_messages sim tape n acc with
    | none => none
    | some a => step_message sim (tape n) a

/-- One iteration of the outer loop (source lines 376-393): assign
`self.simulation_time = second`, then run `messages_per_second` messages. -/
def step_second (p : SimState × RunAccum) (second : ℕ) (messages_per_second : ℕ)
    (tape : ℕ → MsgDraws) : Option (SimState × RunAccum) :=
  let sim := { p.1 with simulation_time := (second : ℚ) }
  match run_messages sim tape messages_per_second p.2 with
  | none => none
  | some acc => some (sim, acc)

/-- The first `n` iterations of the outer loop `for second in
range(duration_seconds)` (source line 376), in order. -/
def run_seconds (messages_per_second : ℕ) (tape : ℕ → ℕ → MsgDraws) :
    ℕ → SimState × RunAccum → Option (SimState × RunAccum)
  | 0, p => some p
  | n + 1, p =>
    match run_seconds messages_per_second tape n p with
    | none => none
    | some q => step_second q n messages_per_second (tape n)

/-- `run_large_scale_simulation` (source lines 362-399 up to the metrics
assembly): `messages_per_second = 900000 // duration_seconds` by integer
division (line 373), then the two nested loops. -/
def run_large_scale_simulation (sim : SimState) (duration_seconds : ℕ)
    (tape : ℕ → ℕ → MsgDraws) : Option (SimState × RunAccum) :=
  let messages_per_second := 900000 / duration_seconds
  run_seconds messages_per_second tape duration_seconds (sim, init_accum)

/-!
## run_build_system_simulation (source lines 420-467)

The `build_agents` selection of lines 425-428 feeds no later computation
(each trial calls `_simulate_message_processing`, which samples from
`self.agents`), so it is not part of the embedding.  Of the emitted metrics
(lines 457-464) the embedding keeps the fields with actual logic: the trial
counters, the error count `total_builds - successful_builds` and the raw
latency samples the median and p95 are computed from. -/

/-- The draws one build trial takes (source lines 436-442): the Rust stage
call with its `random.uniform(50, 200)` payload, then the Python stage call
with its `random.uniform(30, 150)` payload. -/
structure TrialDraws where
  rust_draws : SimDraws
  rust_payload : ℚ
  python_draws : SimDraws
  python_payload : ℚ

/-- One build trial (source lines 436-445): two messages of type CALL;
latencies summed, success is the conjunction of the stage outcomes. -/
def build_trial (sim : SimState) (d : TrialDraws) : Option (ℚ × Bool) :=
  match simulate_message_processing sim d.rust_draws MessageType.CALL d.rust_payload with
  | none => none
  | some (rust_latency, rust_success) =>
    match simulate_message_processing sim d.python_draws MessageType.CALL d.python_payload with
    | none => none
    | some (python_latency, python_success) =>
      some (rust_latency + python_latency, rust_success && python_success)

/-- The accumulator variables of `run_build_system_simulation` (source lines
430-432). -/
structure BuildAccum where
  total_builds : ℕ
  successful_builds : ℕ
  build_latencies : List ℚ
deriving DecidableEq

/-- One iteration of `for build_id in range(1000)` (source lines 435-451). -/
def step_build (sim : SimState) (d : TrialDraws) (acc : BuildAccum) : Option BuildAccum :=
  match build_trial sim d with
  | none => none
  | some (total_build_time, build_success) =>
    some { total_builds := acc.total_builds + 1,
           successful_builds := acc.successful_builds + (if build_success then 1 else 0),
           build_latencies := acc.build_latencies ++ [total_build_time] }

/-- The first `n` build trials, in order. -/
def run_builds (sim : SimState) (tape : ℕ → TrialDraws) : ℕ → BuildAccum → Option BuildAccum
  | 0, acc => some acc
  | n + 1, acc =>
    match run_builds sim tape n acc with
    | none => none
    | some a => step_build sim (tape n) a

/-- The fields of the emitted `PerformanceMetrics` that carry the trial
outcome (source lines 457-464): `error_count = total_builds -
successful_builds` at line 461. -/
structure BuildResult where
  total_builds : ℕ
  successful_builds : ℕ
  error_count : ℕ
  build_latencies : List ℚ
deriving DecidableEq

/-- `run_build_system_simulation` (source lines 420-464): 1000 trials, then
the metrics assembly. -/
def run_build_system_simulation (sim : SimState) (tape : ℕ → TrialDraws) :
    Option BuildResult :=
  match run_builds sim tape 1000 ⟨0, 0, []⟩ with
  | none => none
  | some acc =>
    some ⟨acc.total_builds, acc.successful_builds,
          acc.total_builds - acc.successful_builds, acc.build_latencies⟩

/-!
## Spec-side definitions

Two definitions written from the words of the specification, for the
refinement claims comparing the code to the spec formulas. -/

/-- Latency formula as the spec states it (spec section 4.3, steps 3, 4 and
6): base latency by QoS class; if the message crosses regions the base is
multiplied by the drawn factor; then
`finalLatency = base * (0.5 + scoringOutput * 2.0)`, noise is added and the
result is floored at 10.0 ms. -/
def spec_latency_formula (base : ℚ) (cross_region : Bool)
    (factor scoring_output noise : ℚ) : ℚ :=
  let adjusted := if cross_region then base * factor else base
  max 10 (adjusted * (1/2 + scoring_output * 2) + noise)

/-- Scoring function as the spec states it (spec section 4.2): hidden =
elementwise max(0, features . weights), output = arithmetic mean of the
hidden vector, result floored at 0.001. -/
def scoring_function_spec (features : List ℚ) (weights : List (List ℚ)) : ℚ :=
  let hidden := (vec_mat_mul features weights).map (fun v => max 0 v)
  let mean := hidden.sum / (hidden.length : ℚ)
  max (1/1000) mean

/-!
## Concrete fixtures

Small concrete states and draw records used by the witness theorems. -/

/-- A concrete agent. -/
def agent_a : Agent := ⟨"a", "r", [], QoSClass.REALTIME, TransportHint.QUIC, 0, 0⟩

/-- A second concrete agent, structurally different from the first. -/
def agent_b : Agent := ⟨"b", "r", [], QoSClass.REALTIME, TransportHint.QUIC, 0, 0⟩

/-- A two-agent simulator state with empty weight matrices. -/
def sim_two : SimState := ⟨[agent_a, agent_b], [], 0, [], []⟩

/-- A one-agent simulator state. -/
def sim_one : SimState := ⟨[agent_a], [], 0, [], []⟩

/-- Concrete latency draws: all zero except a cross-region factor of 3. -/
def latency_draws_w : LatencyDraws := ⟨0, 0, 0, 0, 0, 3, 0⟩

/-- Concrete per-message draws: first agents selected, success draw 1. -/
def sim_draws_w : SimDraws := ⟨0, 0, latency_draws_w, 0, 1⟩

/-- Concrete draws for one large-scale message. -/
def msg_draws_w : MsgDraws := ⟨0, 10, sim_draws_w⟩

/-- Constant tape for the large-scale loop. -/
def tape_w : ℕ → ℕ → MsgDraws := fun _ _ => msg_draws_w

/-- Concrete draws for one build trial. -/
def trial_draws_w : TrialDraws := ⟨sim_draws_w, 10, sim_draws_w, 10⟩

/-- Constant tape for the build loop. -/
def build_tape_w : ℕ → TrialDraws := fun _ => trial_draws_w

/-!
## Helper lemmas -/

theorem choice_mem {α : Type} {l : List α} {i : ℕ} {a : α} (h : choice l i = some a) :
    a ∈ l :=
  List.get?_mem h

theorem choice_isSome {α : Type} (l : List α) (i : ℕ) (h : l ≠ []) :
    ∃ a, choice l i = some a ∧ a ∈ l := by
  have hl : 0 < l.length := List.length_pos.mpr h
  have hm : i % l.length < l.length := Nat.mod_lt _ hl
  exact ⟨l.get ⟨i % l.length, hm⟩, List.get?_eq_get hm, List.get_mem _ _ _⟩

/-- Whenever endpoint selection returns, the two agents differ. -/
theorem select_endpoints_distinct {agents : List Agent} {i j : ℕ} {s t : Agent}
    (h : select_endpoints agents i j = some (s, t)) : s ≠ t := by
  cases hc : choice agents i with
  | none => simp only [select_endpoints, hc] at h; exact absurd h (by simp)
  | some src =>
    cases hd : choice (agents.filter (fun a => decide (a ≠ src))) j with
    | none => simp only [select_endpoints, hc, hd] at h; exact absurd h (by simp)
    | some dst =>
      simp only [select_endpoints, hc, hd, Option.some.injEq, Prod.mk.injEq] at h
      obtain ⟨rfl, rfl⟩ := h
      have hmem := choice_mem hd
      have hne := (List.mem_filter.mp hmem).2
      simp only [decide_eq_true_eq] at hne
      exact hne.symm

/-- On a population with two structurally distinct members, endpoint
selection always returns, with distinct members of the population. -/
theorem select_endpoints_some {agents : List Agent}
    (hpop : ∃ x ∈ agents, ∃ y ∈ agents, x ≠ y) (i j : ℕ) :
    ∃ s t, select_endpoints agents i j = some (s, t) ∧ s ∈ agents ∧ t ∈ agents ∧ s ≠ t := by
  obtain ⟨x, hx, y, hy, hxy⟩ := hpop
  have hne : agents ≠ [] := List.ne_nil_of_mem hx
  obtain ⟨s, hcs, hs⟩ := choice_isSome agents i hne
  have hfilter : agents.filter (fun a => decide (a ≠ s)) ≠ [] := by
    rcases eq_or_ne x s with rfl | hxs
    · exact List.ne_nil_of_mem (List.mem_filter.mpr ⟨hy, by simpa using fun h => hxy h.symm⟩)
    · exact List.ne_nil_of_mem (List.mem_filter.mpr ⟨hx, by simpa using hxs⟩)
  obtain ⟨t, hct, ht⟩ := choice_isSome _ j hfilter
  have htm := List.mem_filter.mp ht
  refine ⟨s, t, ?_, hs, htm.1, ?_⟩
  · simp only [select_endpoints, hcs, hct]
  · have hts : t ≠ s := by simpa using htm.2
    exact hts.symm

/-- On a population with fewer than two agents, endpoint selection fails. -/
theorem select_endpoints_none {agents : List Agent} (h : agents.length < 2) (i j : ℕ) :
    select_endpoints agents i j = none := by
  match agents, h with
  | [], _ => rfl
  | [a], _ =>
    have h1 : choice [a] i = some a := by simp [choice, Nat.mod_one]
    have h2 : List.filter (fun b => decide (b ≠ a)) [a] = [] := by simp
    simp only [select_endpoints, h1, h2]
    simp [choice]
  | a :: b :: l, h => exact absurd h (by simp)

/-- On a population with two structurally distinct members, one simulated
message always returns the outcome of the selected endpoints. -/
theorem simulate_some {sim : SimState}
    (hpop : ∃ x ∈ sim.agents, ∃ y ∈ sim.agents, x ≠ y)
    (d : SimDraws) (mt : MessageType) (payload : ℚ) :
    ∃ s t, select_endpoints sim.agents d.source_choice d.dest_choice = some (s, t) ∧
      simulate_message_processing sim d mt payload = some (message_outcome sim s t d payload) := by
  obtain ⟨s, t, hsel, _, _, _⟩ := select_endpoints_some hpop d.source_choice d.dest_choice
  exact ⟨s, t, hsel, by unfold simulate_message_processing; rw [hsel]⟩

/-- The latency component of every message outcome is at least 10 ms. -/
theorem message_outcome_latency_ge (sim : SimState) (s t : Agent) (d : SimDraws) (p : ℚ) :
    10 ≤ (message_outcome sim s t d p).1 :=
  le_max_left _ _

theorem calculate_message_latency_ge (sim : SimState) (d : LatencyDraws)
    (sr dr : String) (size : ℚ) (qos : QoSClass) :
    10 ≤ calculate_message_latency sim d sr dr size qos :=
  le_max_left _ _

/-- On a population with fewer than two agents, one simulated message fails. -/
theorem simulate_none {sim : SimState} (h : sim.agents.length < 2)
    (d : SimDraws) (mt : MessageType) (payload : ℚ) :
    simulate_message_processing sim d mt payload = none := by
  simp only [simulate_message_processing, select_endpoints_none h]

/-- Two structurally distinct agents in a list with at least two distinct
positions and no duplicates. -/
theorem exists_pair_of_nodup {α : Type} {l : List α} (h2 : 2 ≤ l.length) (hn : l.Nodup) :
    ∃ x ∈ l, ∃ y ∈ l, x ≠ y := by
  match l, h2, hn with
  | [], h2, _ => exact absurd h2 (by simp)
  | [a], h2, _ => exact absurd h2 (by simp)
  | a :: b :: t, _, hn =>
    have hab : a ≠ b := by
      have hcons := List.nodup_cons.mp hn
      intro he
      exact hcons.1 (he ▸ List.mem_cons_self b t)
    exact ⟨a, List.mem_cons_self _ _, b, List.mem_cons_of_mem _ (List.mem_cons_self _ _), hab⟩

/-- One inner-loop step succeeds on an adequate population and increments the
message counter and the latency sample list by one. -/
theorem step_message_some {sim : SimState}
    (hpop : ∃ x ∈ sim.agents, ∃ y ∈ sim.agents, x ≠ y) (d : MsgDraws) (acc : RunAccum) :
    ∃ a, step_message sim d acc = some a ∧
      a.total_messages = acc.total_messages + 1 ∧
      a.latencies.length = acc.latencies.length + 1 := by
  obtain ⟨s, t, hsel, hsim⟩ :=
    simulate_some hpop d.sim_draws (pick_message_type d.message_type_choice) d.payload_size
  obtain ⟨l, b, ho⟩ : ∃ l b, message_outcome sim s t d.sim_draws d.payload_size = (l, b) :=
    ⟨_, _, rfl⟩
  rw [ho] at hsim
  refine ⟨⟨acc.total_messages + 1, acc.total_latency + l,
          acc.successful_messages + (if b then 1 else 0),
          acc.error_count + (if b then 0 else 1),
          acc.latencies ++ [l]⟩, ?_, rfl, by simp⟩
  simp only [step_message, hsim]

/-- The first `n` inner-loop steps succeed on an adequate population, adding
`n` messages and `n` latency samples. -/
theorem run_messages_count {sim : SimState}
    (hpop : ∃ x ∈ sim.agents, ∃ y ∈ sim.agents, x ≠ y) (tape : ℕ → MsgDraws) :
    ∀ (n : ℕ) (acc : RunAccum), ∃ a, run_messages sim tape n acc = some a ∧
      a.total_messages = acc.total_messages + n ∧
      a.latencies.length = acc.latencies.length + n
  | 0, acc => ⟨acc, rfl, rfl, rfl⟩
  | n + 1, acc => by
    obtain ⟨a, ha, hat, hal⟩ := run_messages_count hpop tape n acc
    obtain ⟨b, hb, hbt, hbl⟩ := step_message_some hpop (tape n) a
    refine ⟨b, ?_, by omega, by omega⟩
    simp only [run_messages, ha, hb]

/-- One outer-loop step on an adequate population: it only updates the
simulation clock of the state and appends `messages_per_second` messages. -/
theorem step_second_some {A : List Agent} (hpop : ∃ x ∈ A, ∃ y ∈ A, x ≠ y)
    (p : SimState × RunAccum) (hA : p.1.agents = A) (second mps : ℕ) (tape : ℕ → MsgDraws) :
    ∃ q, step_second p second mps tape = some q ∧
      q.1.agents = p.1.agents ∧ q.1.routers = p.1.routers ∧
      q.2.total_messages = p.2.total_messages + mps ∧
      q.2.latencies.length = p.2.latencies.length + mps := by
  have hpop2 : ∃ x ∈ ({ p.1 with simulation_time := (second : ℚ) } : SimState).agents,
      ∃ y ∈ ({ p.1 with simulation_time := (second : ℚ) } : SimState).agents, x ≠ y := by
    show ∃ x ∈ p.1.agents, ∃ y ∈ p.1.agents, x ≠ y
    rw [hA]; exact hpop
  obtain ⟨a, ha, hat, hal⟩ := run_messages_count hpop2 tape mps p.2
  refine ⟨({ p.1 with simulation_time := (second : ℚ) }, a), ?_, rfl, rfl, hat, hal⟩
  simp only [step_second, ha]

/-- The first `n` outer-loop steps on an adequate population: the agent and
router lists are those of the starting state, and exactly `n *
messages_per_second` messages accumulate. -/
theorem run_seconds_props {A : List Agent} (hpop : ∃ x ∈ A, ∃ y ∈ A, x ≠ y)
    (mps : ℕ) (tape : ℕ → ℕ → MsgDraws) :
    ∀ (n : ℕ) (p : SimState × RunAccum), p.1.agents = A →
      ∃ q, run_seconds mps tape n p = some q ∧
        q.1.agents = A ∧ q.1.routers = p.1.routers ∧
        q.2.total_messages = p.2.total_messages + n * mps ∧
        q.2.latencies.length = p.2.latencies.length + n * mps
  | 0, p, hA => ⟨p, rfl, hA, rfl, by simp, by simp⟩
  | n + 1, p, hA => by
    obtain ⟨q, hq, hqa, hqr, hqt, hql⟩ := run_seconds_props hpop mps tape n p hA
    obtain ⟨r, hr, hra, hrr, hrt, hrl⟩ := step_second_some hpop q hqa n mps (tape n)
    refine ⟨r, ?_, ?_, ?_, ?_, ?_⟩
    · simp only [run_seconds, hq, hr]
    · rw [hra, hqa]
    · rw [hrr, hqr]
    · rw [hrt, hqt, Nat.succ_mul]
      exact Nat.add_assoc _ _ _
    · rw [hrl, hql, Nat.succ_mul]
      exact Nat.add_assoc _ _ _

/-- Whatever happens inside, the outer loop never changes the agent or
router lists of the state it threads. -/
theorem run_seconds_frame (mps : ℕ) (tape : ℕ → ℕ → MsgDraws) :
    ∀ (n : ℕ) (p q : SimState × RunAccum), run_seconds mps tape n p = some q →
      q.1.agents = p.1.agents ∧ q.1.routers = p.1.routers
  | 0, p, q, h => by
    cases h
    exact ⟨rfl, rfl⟩
  | n + 1, p, q, h => by
    cases hr : run_seconds mps tape n p with
    | none => rw [run_seconds, hr] at h; exact absurd h (by simp)
    | some r =>
      rw [run_seconds, hr] at h
      obtain ⟨h1, h2⟩ := run_seconds_frame mps tape n p r hr
      cases hm : run_messages { r.1 with simulation_time := (n : ℚ) } (tape n) mps r.2 with
      | none =>
        simp only [step_second, hm] at h
        exact absurd h (by simp)
      | some acc =>
        simp only [step_second, hm, Option.some.injEq] at h
        rw [← h]
        exact ⟨h1, h2⟩

/-- A build trial is the pair (sum of stage latencies, conjunction of stage
outcomes) whenever both stages return. -/
theorem build_trial_eq {sim : SimState} {d : TrialDraws} {rl pl : ℚ} {rs ps : Bool}
    (h1 : simulate_message_processing sim d.rust_draws MessageType.CALL d.rust_payload
            = some (rl, rs))
    (h2 : simulate_message_processing sim d.python_draws MessageType.CALL d.python_payload
            = some (pl, ps)) :
    build_trial sim d = some (rl + pl, rs && ps) := by
  simp only [build_trial, h1, h2]

/-- On an adequate population, every build trial returns, with the summed
latency and conjoined success of its two stages. -/
theorem build_trial_some {sim : SimState}
    (hpop : ∃ x ∈ sim.agents, ∃ y ∈ sim.agents, x ≠ y) (d : TrialDraws) :
    ∃ rl rs pl ps,
      simulate_message_processing sim d.rust_draws MessageType.CALL d.rust_payload
        = some (rl, rs) ∧
      simulate_message_processing sim d.python_draws MessageType.CALL d.python_payload
        = some (pl, ps) ∧
      build_trial sim d = some (rl + pl, rs && ps) := by
  obtain ⟨s1, t1, _, h1⟩ := simulate_some hpop d.rust_draws MessageType.CALL d.rust_payload
  obtain ⟨s2, t2, _, h2⟩ := simulate_some hpop d.python_draws MessageType.CALL d.python_payload
  obtain ⟨rl, rs, ho1⟩ : ∃ l b, message_outcome sim s1 t1 d.rust_draws d.rust_payload = (l, b) :=
    ⟨_, _, rfl⟩
  obtain ⟨pl, ps, ho2⟩ : ∃ l b, message_outcome sim s2 t2 d.python_draws d.python_payload = (l, b) :=
    ⟨_, _, rfl⟩
  rw [ho1] at h1
  rw [ho2] at h2
  exact ⟨rl, rs, pl, ps, h1, h2, build_trial_eq h1 h2⟩

/-- Characterization of the first `n` build trials when every trial returns
the outcome given by `out`. -/
theorem run_builds_char {sim : SimState} {tape : ℕ → TrialDraws} {out : ℕ → ℚ × Bool}
    (hout : ∀ i, build_trial sim (tape i) = some (out i)) :
    ∀ (n : ℕ) (acc : BuildAccum), run_builds sim tape n acc = some
      ⟨acc.total_builds + n,
       acc.successful_builds + ((List.range n).filter (fun i => (out i).2)).length,
       acc.build_latencies ++ (List.range n).map (fun i => (out i).1)⟩
  | 0, acc => by
    simp only [run_builds, List.range_zero, List.filter_nil, List.length_nil,
      Nat.add_zero, List.map_nil, List.append_nil]
  | n + 1, acc => by
    have ih := run_builds_char hout n acc
    obtain ⟨l, b, hlb⟩ : ∃ l b, out n = (l, b) := ⟨_, _, rfl⟩
    have hbt := hout n
    rw [hlb] at hbt
    simp only [run_builds, ih, step_build, hbt, Option.some.injEq, BuildAccum.mk.injEq]
    refine ⟨by omega, ?_, ?_⟩
    · rw [List.range_succ, List.filter_append, List.length_append, List.filter_singleton]
      cases b <;> simp [hlb] <;> omega
    · rw [List.range_succ, List.map_append, List.append_assoc]
      simp [hlb]

/-- The metrics assembly of the build run, given the loop result. -/
theorem run_build_system_eq {sim : SimState} {tape : ℕ → TrialDraws} {acc : BuildAccum}
    (h : run_builds sim tape 1000 ⟨0, 0, []⟩ = some acc) :
    run_build_system_simulation sim tape
      = some ⟨acc.total_builds, acc.successful_builds,
              acc.total_builds - acc.successful_builds, acc.build_latencies⟩ := by
  unfold run_build_system_simulation
  rw [h]

/-- The completeness flag computed by the opcode check is exactly coverage of
the expected contiguous range by the opcode set. -/
theorem completeness_eq (opcodes : List ℤ) :
    (analyze_message_consistency opcodes).1.completeness
      = decide (expected_range ⊆ opcodes.toFinset) := by
  by_cases heq : opcodes.toFinset = expected_range
  · have hsub : expected_range ⊆ opcodes.toFinset := by rw [heq]
    simp [analyze_message_consistency, heq, hsub]
  · by_cases hm : expected_range \ opcodes.toFinset = ∅
    · have hsub := Finset.sdiff_eq_empty_iff_subset.mp hm
      simp [analyze_message_consistency, heq, hm, hsub]
    · have hsub : ¬ expected_range ⊆ opcodes.toFinset :=
        fun h => hm (Finset.sdiff_eq_empty_iff_subset.mpr h)
      simp [analyze_message_consistency, heq, hm, hsub]

/-- When the completeness flag is false, the set of missing opcodes is
reported in the issue log. -/
theorem missing_issue_mem (opcodes : List ℤ)
    (h : (analyze_message_consistency opcodes).1.completeness = false) :
    Issue.missing_opcodes (expected_range \ opcodes.toFinset)
      ∈ (analyze_message_consistency opcodes).2 := by
  have hsub : ¬ expected_range ⊆ opcodes.toFinset := by
    rw [completeness_eq] at h
    simpa using h
  have hm : expected_range \ opcodes.toFinset ≠ ∅ :=
    fun he => hsub (Finset.sdiff_eq_empty_iff_subset.mp he)
  have heq : opcodes.toFinset ≠ expected_range := fun he => hsub (by rw [he])
  simp [analyze_message_consistency, heq, hm]

/-!
## Claim theorems -/

/-- C1: on the unmodified hardcoded opcode, header and version tables,
`calculate_integrity_score` returns exactly 100.0 and the issue log is empty
after the call, for every fresh `ProtocolIntegrityAnalyzer` (the analyzer
starts with an empty issue list, so the final log is exactly the issues the
three checks append). -/
theorem integrity_score_is_100 : calculate_integrity_score = (100, []) := by
  have h1 : analyze_message_consistency expected_opcodes = (⟨true, true, true⟩, []) := by decide
  have h2 : analyze_header_field_consistency iicp_headers = (⟨true, true, true⟩, []) := by decide
  have h3 : analyze_version_compatibility 9 14 14 = (⟨true, true, true⟩, []) := by decide
  simp only [calculate_integrity_score, h1, h2, h3, bool_count]
  norm_num

/-- C2: for every simulator state, every draw of the random source (any
population, QoS class, payload size, noise sample), the value of
`_calculate_message_latency` is at least 10.0 ms, and hence every latency
inside a result of `_simulate_message_processing` is at least 10.0 ms. -/
theorem message_latency_floor :
    (∀ (sim : SimState) (d : LatencyDraws) (source_region dest_region : String)
        (message_size_kb : ℚ) (qos : QoSClass),
        10 ≤ calculate_message_latency sim d source_region dest_region message_size_kb qos) ∧
    (∀ (sim : SimState) (d : SimDraws) (mt : MessageType) (payload : ℚ),
        (simulate_message_processing sim d mt payload).all (fun r => decide (10 ≤ r.1)) = true) := by
  refine ⟨fun sim d sr dr size qos => le_max_left _ _, fun sim d mt payload => ?_⟩
  cases hsel : select_endpoints sim.agents d.source_choice d.dest_choice with
  | none => simp [simulate_message_processing, hsel]
  | some st =>
    obtain ⟨s, t⟩ := st
    simp only [simulate_message_processing, hsel, Option.all]
    simpa using message_outcome_latency_ge sim s t d payload

/-- C3: on an adequate population, a large-scale run of duration `d` with
target total 900000 performs exactly `d * (900000 / d)` message simulations
(integer division), accumulating one latency sample per simulation. -/
theorem run_large_scale_message_count (sim : SimState) (tape : ℕ → ℕ → MsgDraws)
    (duration_seconds : ℕ) (hd : 0 < duration_seconds)
    (hpop : ∃ x ∈ sim.agents, ∃ y ∈ sim.agents, x ≠ y) :
    ∃ q, run_large_scale_simulation sim duration_seconds tape = some q ∧
      q.2.total_messages = duration_seconds * (900000 / duration_seconds) ∧
      q.2.latencies.length = duration_seconds * (900000 / duration_seconds) := by
  obtain ⟨q, hq, hqa, hqr, hqt, hql⟩ :=
    run_seconds_props hpop (900000 / duration_seconds) tape duration_seconds
      (sim, init_accum) rfl
  refine ⟨q, hq, ?_, ?_⟩
  · simpa [init_accum] using hqt
  · simpa [init_accum] using hql

/-- C3 witness: a concrete two-agent population and duration 300; the run
performs 300 * (900000 / 300) = 900000 simulations. -/
theorem run_large_scale_message_count_witness :
    0 < 300 ∧ (∃ x ∈ sim_two.agents, ∃ y ∈ sim_two.agents, x ≠ y) ∧
    (∃ q, run_large_scale_simulation sim_two 300 tape_w = some q ∧
      q.2.total_messages = 300 * (900000 / 300) ∧
      q.2.latencies.length = 300 * (900000 / 300)) ∧
    300 * (900000 / 300) = 900000 :=
  ⟨by decide, by decide,
   run_large_scale_message_count sim_two tape_w 300 (by decide) (by decide), by decide⟩

/-- C4: the latency computation equals the spec formula: base latency by QoS
class (realtime 50 ms, interactive 150 ms, batch 500 ms), multiplied by the
drawn cross-region factor exactly when the regions differ, then the scoring
adjustment and the noise with the 10 ms floor; when the factor is drawn in
the uniform range [2, 4] the cross-region penalty is between 2x and 4x; and
the QoS class a simulated message is priced with is the source agent QoS
class. -/
theorem qos_base_latency_and_cross_region (sim : SimState) (d : LatencyDraws)
    (source_region dest_region : String) (message_size_kb : ℚ) (qos : QoSClass)
    (h2 : 2 ≤ d.cross_region_factor) (h4 : d.cross_region_factor ≤ 4) :
    calculate_message_latency sim d source_region dest_region message_size_kb qos
      = spec_latency_formula (base_latency qos) (decide (source_region ≠ dest_region))
          d.cross_region_factor
          (neural_network_predict
            (latency_features sim d source_region dest_region message_size_kb qos)
            sim.latency_prediction_weights)
          d.noise
    ∧ base_latency QoSClass.REALTIME = 50
    ∧ base_latency QoSClass.INTERACTIVE = 150
    ∧ base_latency QoSClass.BATCH = 500
    ∧ (source_region ≠ dest_region →
        2 * base_latency qos ≤ base_latency qos * d.cross_region_factor ∧
        base_latency qos * d.cross_region_factor ≤ 4 * base_latency qos)
    ∧ (∀ (source_agent dest_agent : Agent) (sd : SimDraws) (payload : ℚ),
        (message_outcome sim source_agent dest_agent sd payload).1
          = calculate_message_latency sim sd.latency source_agent.region dest_agent.region
              payload source_agent.performance_class) := by
  refine ⟨?_, rfl, rfl, rfl, ?_, fun _ _ _ _ => rfl⟩
  · by_cases h : source_region = dest_region
    · simp [calculate_message_latency, spec_latency_formula, h]
    · simp [calculate_message_latency, spec_latency_formula, h]
  · intro h
    have hb : (0 : ℚ) < base_latency qos := by
      cases qos <;> norm_num [base_latency]
    constructor
    · calc 2 * base_latency qos = base_latency qos * 2 := by ring
        _ ≤ base_latency qos * d.cross_region_factor :=
            mul_le_mul_of_nonneg_left h2 hb.le
    · calc base_latency qos * d.cross_region_factor ≤ base_latency qos * 4 :=
            mul_le_mul_of_nonneg_left h4 hb.le
        _ = 4 * base_latency qos := by ring

/-- C4 witness: concrete state, distinct regions and cross-region factor 3. -/
theorem qos_base_latency_and_cross_region_witness :
    (2 ≤ latency_draws_w.cross_region_factor) ∧ (latency_draws_w.cross_region_factor ≤ 4) ∧
    (calculate_message_latency sim_two latency_draws_w "r" "s" 10 QoSClass.BATCH
        = spec_latency_formula (base_latency QoSClass.BATCH) (decide (("r" : String) ≠ "s"))
            latency_draws_w.cross_region_factor
            (neural_network_predict
              (latency_features sim_two latency_draws_w "r" "s" 10 QoSClass.BATCH)
              sim_two.latency_prediction_weights)
            latency_draws_w.noise
      ∧ base_latency QoSClass.REALTIME = 50
      ∧ base_latency QoSClass.INTERACTIVE = 150
      ∧ base_latency QoSClass.BATCH = 500
      ∧ (("r" : String) ≠ "s" →
          2 * base_latency QoSClass.BATCH
              ≤ base_latency QoSClass.BATCH * latency_draws_w.cross_region_factor ∧
          base_latency QoSClass.BATCH * latency_draws_w.cross_region_factor
              ≤ 4 * base_latency QoSClass.BATCH)
      ∧ (∀ (source_agent dest_agent : Agent) (sd : SimDraws) (payload : ℚ),
          (message_outcome sim_two source_agent dest_agent sd payload).1
            = calculate_message_latency sim_two sd.latency source_agent.region
                dest_agent.region payload source_agent.performance_class)) :=
  ⟨by decide, by decide,
   qos_base_latency_and_cross_region sim_two latency_draws_w "r" "s" 10 QoSClass.BATCH
     (by decide) (by decide)⟩

/-- C5: the scoring function equals the spec formula (mean of the rectified
matrix product, floored at 0.001), is a function of exactly its two arguments
(it reads no other state), and never returns a negative value; indeed it is
bounded below by 0.001. -/
theorem neural_network_predict_spec (features : List ℚ) (weights : List (List ℚ)) :
    neural_network_predict features weights = scoring_function_spec features weights ∧
    1/1000 ≤ neural_network_predict features weights ∧
    0 ≤ neural_network_predict features weights := by
  refine ⟨rfl, le_max_left _ _, ?_⟩
  exact le_trans (by norm_num) (le_max_left (1/1000 : ℚ) _)

/-- C6: on an adequate population, the build-pipeline run performs exactly
1000 trials and emits exactly 1000 latency samples; each trial latency is the
sum of its two stage latencies, a trial is successful exactly when both stage
outcomes are true, and the emitted error count is 1000 minus the number of
successful trials. -/
theorem run_build_system_characterization (sim : SimState) (tape : ℕ → TrialDraws)
    (hpop : ∃ x ∈ sim.agents, ∃ y ∈ sim.agents, x ≠ y) :
    ∃ out : ℕ → ℚ × Bool,
      (∀ i, ∃ rust_latency rust_success python_latency python_success,
        simulate_message_processing sim (tape i).rust_draws MessageType.CALL
            (tape i).rust_payload = some (rust_latency, rust_success) ∧
        simulate_message_processing sim (tape i).python_draws MessageType.CALL
            (tape i).python_payload = some (python_latency, python_success) ∧
        out i = (rust_latency + python_latency, rust_success && python_success)) ∧
      run_build_system_simulation sim tape = some
        ⟨1000,
         ((List.range 1000).filter (fun i => (out i).2)).length,
         1000 - ((List.range 1000).filter (fun i => (out i).2)).length,
         (List.range 1000).map (fun i => (out i).1)⟩ ∧
      ((List.range 1000).map (fun i => (out i).1)).length = 1000 := by
  have h := fun i => build_trial_some hpop (tape i)
  choose rl rs pl ps h1 h2 h3 using h
  refine ⟨fun i => (rl i + pl i, rs i && ps i),
    fun i => ⟨rl i, rs i, pl i, ps i, h1 i, h2 i, rfl⟩, ?_, by simp⟩
  have hrun := @run_builds_char sim tape (fun i => (rl i + pl i, rs i && ps i)) h3 1000 ⟨0, 0, []⟩
  rw [run_build_system_eq hrun]
  simp only [Nat.zero_add, List.nil_append]

/-- C6 witness: the concrete two-agent population is adequate. -/
theorem run_build_system_characterization_witness :
    (∃ x ∈ sim_two.agents, ∃ y ∈ sim_two.agents, x ≠ y) ∧
    (∃ out : ℕ → ℚ × Bool,
      (∀ i, ∃ rust_latency rust_success python_latency python_success,
        simulate_message_processing sim_two (build_tape_w i).rust_draws MessageType.CALL
            (build_tape_w i).rust_payload = some (rust_latency, rust_success) ∧
        simulate_message_processing sim_two (build_tape_w i).python_draws MessageType.CALL
            (build_tape_w i).python_payload = some (python_latency, python_success) ∧
        out i = (rust_latency + python_latency, rust_success && python_success)) ∧
      run_build_system_simulation sim_two build_tape_w = some
        ⟨1000,
         ((List.range 1000).filter (fun i => (out i).2)).length,
         1000 - ((List.range 1000).filter (fun i => (out i).2)).length,
         (List.range 1000).map (fun i => (out i).1)⟩ ∧
      ((List.range 1000).map (fun i => (out i).1)).length = 1000) :=
  ⟨by decide, run_build_system_characterization sim_two build_tape_w (by decide)⟩

/-- C7, counterexample to the claim as stated: on the opcode table 0x01-0x0F
(a strict superset of the expected range) the completeness flag stays true
although the opcode set does not equal the contiguous range, because the
source only flips the flag when the set of missing values is nonempty. -/
theorem opcode_completeness_counterexample :
    (analyze_message_consistency
        [1, 2, 3, 4, 5, 6, 7, 8, 9, 10, 11, 12, 13, 14, 15]).1.completeness = true ∧
    ([1, 2, 3, 4, 5, 6, 7, 8, 9, 10, 11, 12, 13, 14, 15] : List ℤ).toFinset ≠ expected_range :=
  ⟨by decide, by decide⟩

/-- C7, amended: for every opcode table, the opcode check reports
completeness as true exactly when every value of the contiguous range
[0x01, 0x0E] occurs among the opcode values (values outside the range and
duplicates do not affect completeness), and when completeness fails the set
of missing values is reported in the issue log. -/
theorem opcode_completeness_iff_covered (opcodes : List ℤ) :
    ((analyze_message_consistency opcodes).1.completeness = true ↔
      expected_range ⊆ opcodes.toFinset) ∧
    ((analyze_message_consistency opcodes).1.completeness = false →
      Issue.missing_opcodes (expected_range \ opcodes.toFinset)
        ∈ (analyze_message_consistency opcodes).2) := by
  refine ⟨?_, missing_issue_mem opcodes⟩
  rw [completeness_eq]
  simp

/-- C7 witness: the amended theorem at the table [1, 2], where completeness
fails and the missing set is reported. -/
theorem opcode_completeness_iff_covered_witness :
    (((analyze_message_consistency [1, 2]).1.completeness = true ↔
        expected_range ⊆ ([1, 2] : List ℤ).toFinset) ∧
     ((analyze_message_consistency [1, 2]).1.completeness = false →
        Issue.missing_opcodes (expected_range \ ([1, 2] : List ℤ).toFinset)
          ∈ (analyze_message_consistency [1, 2]).2)) :=
  opcode_completeness_iff_covered [1, 2]

/-- C8: the selected source and destination agents are always distinct
whenever the selection returns; on a population of at least two pairwise
distinct agents the selection (and hence the whole simulated message)
returns; on a population with fewer than two agents the message simulation
produces no value at all (the embedding of the uncaught IndexError). -/
theorem simulate_endpoint_distinctness (sim : SimState) (d : SimDraws)
    (mt : MessageType) (payload : ℚ) :
    (∀ s t, select_endpoints sim.agents d.source_choice d.dest_choice = some (s, t) → s ≠ t) ∧
    (2 ≤ sim.agents.length → sim.agents.Nodup →
      ∃ s t, select_endpoints sim.agents d.source_choice d.dest_choice = some (s, t) ∧ s ≠ t ∧
        simulate_message_processing sim d mt payload
          = some (message_outcome sim s t d payload)) ∧
    (sim.agents.length < 2 → simulate_message_processing sim d mt payload = none) := by
  refine ⟨fun s t h => select_endpoints_distinct h, ?_, fun h => simulate_none h d mt payload⟩
  intro hlen hnodup
  obtain ⟨s, t, hsel, _, _, hst⟩ :=
    select_endpoints_some (exists_pair_of_nodup hlen hnodup) d.source_choice d.dest_choice
  exact ⟨s, t, hsel, hst, by simp only [simulate_message_processing, hsel]⟩

/-- C8 witness: a two-agent population with distinct agents, and a one-agent
population where the simulation fails. -/
theorem simulate_endpoint_distinctness_witness :
    (2 ≤ sim_two.agents.length ∧ sim_two.agents.Nodup ∧
      ∃ s t, select_endpoints sim_two.agents sim_draws_w.source_choice sim_draws_w.dest_choice
          = some (s, t) ∧ s ≠ t ∧
        simulate_message_processing sim_two sim_draws_w MessageType.INIT 10
          = some (message_outcome sim_two s t sim_draws_w 10)) ∧
    (sim_one.agents.length < 2 ∧
      simulate_message_processing sim_one sim_draws_w MessageType.INIT 10 = none) :=
  ⟨⟨by decide, by decide,
    (simulate_endpoint_distinctness sim_two sim_draws_w MessageType.INIT 10).2.1
      (by decide) (by decide)⟩,
   ⟨by decide,
    (simulate_endpoint_distinctness sim_one sim_draws_w MessageType.INIT 10).2.2 (by decide)⟩⟩

/-- C9: a large-scale run never mutates the population: whenever it returns,
the agent list (with every field, including the load factors) and the router
list (with every counter) of the final state are exactly those of the
initial state; the only state field the loop writes is the simulation clock,
and `_simulate_message_processing` itself writes no state at all (in the
source it only reads `self`). -/
theorem run_large_scale_preserves_population (sim : SimState) (duration_seconds : ℕ)
    (tape : ℕ → ℕ → MsgDraws) :
    (run_large_scale_simulation sim duration_seconds tape).map
        (fun q => (q.1.agents, q.1.routers))
      = (run_large_scale_simulation sim duration_seconds tape).map
          (fun _ => (sim.agents, sim.routers)) := by
  cases hr : run_large_scale_simulation sim duration_seconds tape with
  | none => rfl
  | some q =>
    have hf := run_seconds_frame (900000 / duration_seconds) tape duration_seconds
      (sim, init_accum) q hr
    show some (q.1.agents, q.1.routers) = some (sim.agents, sim.routers)
    rw [hf.1, hf.2]

/-- C10: the `message_type` argument of `_simulate_message_processing` has no
influence on the result: with the same simulator state, the same draws from
the random source and the same payload, any two message types give the
identical result. -/
theorem message_type_irrelevant (sim : SimState) (d : SimDraws) (payload : ℚ)
    (mt1 mt2 : MessageType) :
    simulate_message_processing sim d mt1 payload
      = simulate_message_processing sim d mt2 payload := rfl

end IICP
